import Mathlib

/-!
# Verification of the CS231n assignment-2 PyTorch notebook

A shallow embedding, in Lean 4, of the original code in
`assignment2/.ipynb_checkpoints/PyTorch-checkpoint.ipynb`: the
`ChunkSampler`, the `Flatten` module, the layer stack of
`fixed_model_base` (as a shape-propagation pipeline), the `train`
loop and the `check_accuracy` loop (as event traces plus the numeric
state they compute), the optimizer/model wiring of the notebook cells,
and the error-propagation structure of the notebook's own code.

The file is organised as: all definitions first, then all theorems.
-/

set_option autoImplicit false
set_option linter.unusedVariables false

namespace CS231n

/-! ## Python ranges and the ChunkSampler

Source:
```
class ChunkSampler(sampler.Sampler):
    def __init__(self, num_samples, start = 0):
        self.num_samples = num_samples
        self.start = start
    def __iter__(self):
        return iter(range(self.start, self.start + self.num_samples))
    def __len__(self):
        return self.num_samples
```
-/

/-- Python `range(a, b)` as the list `[a, a+1, ..., b-1]`. -/
def pyRange (a b : Nat) : List Nat :=
  List.range' a (b - a)

/-- The method `ChunkSampler.__iter__`: `iter(range(start, start + num_samples))`. -/
def ChunkSampler.iter (num_samples start : Nat) : List Nat :=
  pyRange start (start + num_samples)

/-- The method `ChunkSampler.__len__`: returns `num_samples`. -/
def ChunkSampler.len (num_samples start : Nat) : Nat :=
  num_samples

/-- The constant `NUM_TRAIN = 49000` from the notebook. -/
def NUM_TRAIN : Nat := 49000

/-- The constant `NUM_VAL = 1000` from the notebook. -/
def NUM_VAL : Nat := 1000

/-- A `DataLoader` construction, as configured by the notebook: a batch
size, the index sequence produced by the `sampler` argument, and the
`shuffle` flag (which the notebook never passes, so it keeps its
default `False`). -/
structure DataLoaderCfg where
  batch_size : Nat
  samplerIndices : List Nat
  shuffle : Bool := false

/-- The loader `loader_train = DataLoader(cifar10_train, batch_size=64,
sampler=ChunkSampler(NUM_TRAIN, 0))`. -/
def loader_train_cfg : DataLoaderCfg :=
  { batch_size := 64, samplerIndices := ChunkSampler.iter NUM_TRAIN 0 }

/-- The loader `loader_val = DataLoader(cifar10_val, batch_size=64,
sampler=ChunkSampler(NUM_VAL, NUM_TRAIN))`. -/
def loader_val_cfg : DataLoaderCfg :=
  { batch_size := 64, samplerIndices := ChunkSampler.iter NUM_VAL NUM_TRAIN }

/-! ## Tensors and the Flatten module

Source:
```
class Flatten(nn.Module):
    def forward(self, x):
        N, C, H, W = x.size() # read in N, C, H, W
        return x.view(N, -1)  # "flatten" the C * H * W values into a single vector per image
```
-/

/-- A rank-4 tensor (batch, channels, height, width) with its contiguous
row-major storage. -/
structure Tensor4 (α : Type) where
  n : Nat
  c : Nat
  h : Nat
  w : Nat
  data : List α

/-- A rank-2 tensor with its contiguous row-major storage. -/
structure Tensor2 (α : Type) where
  rows : Nat
  cols : Nat
  data : List α

variable {α β : Type}

/-- Number of elements declared by the shape. -/
def Tensor4.numel (t : Tensor4 α) : Nat :=
  t.n * t.c * t.h * t.w

/-- The framework's `x.view(d0, -1)` on a contiguous rank-4 tensor: the
trailing dimension is inferred as `numel / d0`, accepted only when `d0`
is nonzero and divides `numel`; the row-major element sequence is reused
unchanged. -/
def Tensor4.view2 (t : Tensor4 α) (d0 : Nat) : Option (Tensor2 α) :=
  if d0 ≠ 0 ∧ t.numel % d0 = 0 then
    some { rows := d0, cols := t.numel / d0, data := t.data }
  else none

/-- The module method `Flatten.forward`: reads `N, C, H, W = x.size()` and returns
`x.view(N, -1)`. -/
def Flatten.forward (t : Tensor4 α) : Option (Tensor2 α) :=
  t.view2 t.n

/-! ## Shape propagation through the fixed model

Source:
```
fixed_model_base = nn.Sequential(nn.Conv2d(3, 32, kernel_size=7, stride=1),
                nn.ReLU(inplace=True),
                nn.BatchNorm2d(32, eps=1e-05, momentum=0.1, affine=True, track_running_stats=True),
                nn.MaxPool2d(kernel_size=2,stride=2),
                Flatten(),
                nn.Linear(5408, 1024),
                nn.ReLU(inplace=True),
                nn.Linear(1024, 10)
            )
```
-/

/-- A layer configuration as instantiated by the notebook (paddings and
strides as passed or defaulted). -/
inductive Layer where
  | conv2d (inC outC k s p : Nat)
  | relu
  | batchNorm2d (c : Nat)
  | maxPool2d (k s : Nat)
  | flattenL
  | linear (inF outF : Nat)
  deriving DecidableEq

/-- Per-sample dimensionality flowing between layers. -/
inductive Dims where
  | chw (c h w : Nat)
  | vec (f : Nat)
  deriving DecidableEq

/-- Output dimensionality of one layer on one sample, `none` when the
layer rejects the input dimensionality (channel/feature mismatch or a
kernel larger than the padded input). -/
def layerOut : Layer → Dims → Option Dims
  | .conv2d ic oc k s p, .chw c h w =>
    if c = ic ∧ 0 < s ∧ k ≤ h + 2 * p ∧ k ≤ w + 2 * p then
      some (.chw oc ((h + 2 * p - k) / s + 1) ((w + 2 * p - k) / s + 1))
    else none
  | .relu, d => some d
  | .batchNorm2d bc, .chw c h w =>
    if c = bc then some (.chw c h w) else none
  | .maxPool2d k s, .chw c h w =>
    if 0 < s ∧ k ≤ h ∧ k ≤ w then
      some (.chw c ((h - k) / s + 1) ((w - k) / s + 1))
    else none
  | .flattenL, .chw c h w => some (.vec (c * h * w))
  | .linear i o, .vec f => if f = i then some (.vec o) else none
  | _, _ => none

/-- A layer applied to a batch: the batch dimension passes through. -/
def layerOutB (l : Layer) (s : Nat × Dims) : Option (Nat × Dims) :=
  (layerOut l s.2).map (fun d => (s.1, d))

/-- Shape propagation through a `nn.Sequential` layer list. -/
def propagateB : List Layer → Nat × Dims → Option (Nat × Dims)
  | [], s => some s
  | l :: ls, s => (layerOutB l s).bind (propagateB ls)

/-- The layer list of `fixed_model_base`. -/
def fixed_model_base : List Layer :=
  [.conv2d 3 32 7 1 0, .relu, .batchNorm2d 32, .maxPool2d 2 2,
   .flattenL, .linear 5408 1024, .relu, .linear 1024 10]

/-! ## Optimizer/model wiring across the notebook cells

The notebook's cells, in execution order, construct optimizers over a
model's parameters and run training loops with the optimizer currently
bound to the global `optimizer` variable:

```
optimizer = optim.Adam(simple_model.parameters(), lr=1e-2)        # simple_model cell
optimizer = optim.RMSprop(simple_model.parameters(), lr=1e-2)     # fixed_model cell
optimizer = optim.RMSprop(fixed_model_gpu.parameters(), lr=1e-3)  # GPU-training setup cell
for t, (x, y) in enumerate(loader_train): ... optimizer.step()    # inline loop on fixed_model_gpu
train(fixed_model_gpu, loss_fn, optimizer, num_epochs=1)
optimizer = optim.Adam(params=model.parameters(), lr=5e-4)        # open-ended cell
train(model, loss_fn, optimizer, num_epochs=1)
```

`fixed_model = fixed_model_base.type(dtype)` aliases `fixed_model_base`
(`Module.type` converts in place and returns `self`), and
`fixed_model_gpu = copy.deepcopy(fixed_model_base)` is a distinct
parameter set. -/

/-- The distinct parameter-owning models of the notebook. -/
inductive MId where
  | simple_model
  | fixed_model_base
  | fixed_model_gpu
  | best_model
  deriving DecidableEq

/-- The binding `fixed_model` aliases `fixed_model_base` (in-place `.type`). -/
def fixed_model : MId := .fixed_model_base

/-- One notebook cell action relevant to optimizer/model wiring. -/
inductive CellAct where
  | mkOptimizer (owner : MId)
  | trainCall (m : MId)
  deriving DecidableEq

/-- The notebook's cells in execution order (only optimizer
constructions and training runs). -/
def notebookCells : List CellAct :=
  [.mkOptimizer .simple_model,
   .mkOptimizer .simple_model,
   .mkOptimizer .fixed_model_gpu,
   .trainCall .fixed_model_gpu,
   .trainCall .fixed_model_gpu,
   .mkOptimizer .best_model,
   .trainCall .best_model]

/-- Replays the cells, tracking which model's parameters the global
`optimizer` was constructed over, and records for each training run the
pair (model being trained, owner of the optimizer's parameters). -/
def trainingEvents : List CellAct → Option MId → List (MId × Option MId)
  | [], _ => []
  | .mkOptimizer m :: cs, _ => trainingEvents cs (some m)
  | .trainCall m :: cs, o => (m, o) :: trainingEvents cs o

/-! ## Exception propagation through the notebook's own code

`train` and `check_accuracy` wrap no framework call in `try`/`except`:
every loop body is a straight-line sequence of framework calls, so an
exception raised by any of them aborts the loop and propagates to the
caller unchanged. The loop bodies are embedded in the `Except` monad,
each framework call being a fallible operation supplied from outside
(ε is the exception type, β the batch type, π the scores type,
Λ the loss type). -/

/-- The framework operations one `train` iteration calls, each
fallible. -/
structure TrainFW (ε β π Λ : Type) where
  forwardOp : β → Except ε π
  lossOp : π → Except ε Λ
  zeroGradOp : Except ε Unit
  backwardOp : Λ → Except ε Unit
  stepOp : Except ε Unit

/-- One iteration of the `train` inner loop: forward pass, loss,
`zero_grad`, `backward`, `step`, in source order, with no handler. -/
def runBatchE {ε β π Λ : Type} (fw : TrainFW ε β π Λ) (b : β) : Except ε Unit := do
  let scores ← fw.forwardOp b
  let loss ← fw.lossOp scores
  fw.zeroGradOp
  fw.backwardOp loss
  fw.stepOp

/-- The `train` inner loop over the loader's batches, with no handler. -/
def trainBatchesE {ε β π Λ : Type} (fw : TrainFW ε β π Λ) : List β → Except ε Unit
  | [] => .ok ()
  | b :: bs => do
    runBatchE fw b
    trainBatchesE fw bs

/-- The framework operations one `check_accuracy` iteration calls, each
fallible: the forward pass, and the prediction/comparison step returning
(correct in batch, batch size). -/
structure AccFW (ε β π : Type) where
  forwardOp : β → Except ε π
  predsOp : π → Except ε (Nat × Nat)

/-- One iteration of the `check_accuracy` loop, with no handler. -/
def accBatchE {ε β π : Type} (fw : AccFW ε β π) (st : Nat × Nat) (b : β) :
    Except ε (Nat × Nat) := do
  let scores ← fw.forwardOp b
  let cs ← fw.predsOp scores
  pure (st.1 + cs.1, st.2 + cs.2)

/-- The `check_accuracy` loop over the loader's batches, with no
handler. -/
def checkBatchesE {ε β π : Type} (fw : AccFW ε β π) :
    List β → Nat × Nat → Except ε (Nat × Nat)
  | [], st => .ok st
  | b :: bs, st => do
    let st2 ← accBatchE fw st b
    checkBatchesE fw bs st2

/-- A training framework whose forward pass always raises, used to
witness error propagation on a concrete input. -/
def failingTrainFW : TrainFW String Nat Nat Nat :=
  { forwardOp := fun _ => .error "shape mismatch",
    lossOp := fun _ => .ok 0,
    zeroGradOp := .ok (),
    backwardOp := fun _ => .ok (),
    stepOp := .ok () }

/-! ## Fixed-point decimal formatting (Python `%.Nf`)

A rational-valued model of the formatting the notebook's `print` calls
apply to loss and percentage values: round to `prec` decimal places
(ties to even, as the underlying C `printf` does) and render with
exactly `prec` digits after the point. -/

/-- Round a rational to the nearest integer, ties to even. -/
def rndHalfEven (q : ℚ) : Int :=
  let f := q.floor
  let r := q - (f : ℚ)
  if r < 1 / 2 then f
  else if 1 / 2 < r then f + 1
  else if f % 2 = 0 then f else f + 1

/-- Left-pad a string with zeros to the given length. -/
def zeroPad (p : Nat) (s : String) : String :=
  String.mk (List.replicate (p - s.length) '0') ++ s

/-- Python `'%.<p>f' % q` on a rational value. -/
def fmtFixed (p : Nat) (q : ℚ) : String :=
  let n := rndHalfEven (q * ((10 ^ p : Nat) : ℚ))
  let m := n.natAbs
  let ip := m / 10 ^ p
  let fp := m % 10 ^ p
  (if n < 0 then "-" else "") ++ toString ip ++ "." ++ zeroPad p (toString fp)

/-! ## The `train` loop as an event trace

Source:
```
def train(model, loss_fn, optimizer, num_epochs = 1):
    for epoch in range(num_epochs):
        print('Starting epoch %d / %d' % (epoch + 1, num_epochs))
        model.train()
        for t, (x, y) in enumerate(loader_train):
            x_var = Variable(x.type(gpu_dtype))
            y_var = Variable(y.type(gpu_dtype).long())
            scores = model(x_var)
            loss = loss_fn(scores, y_var)
            if (t + 1) % print_every == 0:
                print('t = %d, loss = %.4f' % (t + 1, loss.data.item()))
            optimizer.zero_grad()
            loss.backward()
            optimizer.step()
```

The trace records, in program order, every framework step and every
`print`; the numeric loss of iteration `t` of epoch `e` is supplied by
an arbitrary function `loss : Nat → Nat → ℚ` since its value is computed
by the external framework. -/

/-- The constant `print_every = 100` from the notebook. -/
def print_every : Nat := 100

/-- One event of the `train` loop, tagged with its epoch `e` and
iteration `t` (0-based, as `enumerate` yields them). -/
inductive TrEv where
  | epochPrint (e n : Nat)
  | modelTrainMode (e : Nat)
  | forwardE (e t : Nat)
  | lossCompE (e t : Nat)
  | lossPrintE (e t : Nat) (v : ℚ)
  | zeroGradE (e t : Nat)
  | backwardE (e t : Nat)
  | optStepE (e t : Nat)
  deriving DecidableEq

/-- The events of one iteration of the inner loop, in source order. -/
def perBatchTrace (pe e t : Nat) (v : ℚ) : List TrEv :=
  [.forwardE e t, .lossCompE e t] ++
  (if (t + 1) % pe == 0 then [.lossPrintE e t v] else []) ++
  [.zeroGradE e t, .backwardE e t, .optStepE e t]

/-- The full event trace of `train` over `ne` epochs of `nb` batches,
printing every `pe` iterations. -/
def train_trace (pe nb ne : Nat) (loss : Nat → Nat → ℚ) : List TrEv :=
  (List.range ne).flatMap fun e =>
    .epochPrint e ne :: .modelTrainMode e ::
      (List.range nb).flatMap fun t => perBatchTrace pe e t (loss e t)

/-- The format `'Starting epoch %d / %d' % (epoch + 1, num_epochs)`. -/
def epochLine (e n : Nat) : String :=
  "Starting epoch " ++ toString (e + 1) ++ " / " ++ toString n

/-- The format `'t = %d, loss = %.4f' % (t + 1, loss.data.item())`. -/
def lossLine (t1 : Nat) (v : ℚ) : String :=
  "t = " ++ toString t1 ++ ", loss = " ++ fmtFixed 4 v

/-- The strings a train-loop event prints (most events print nothing). -/
def renderTrEv : TrEv → List String
  | .epochPrint e n => [epochLine e n]
  | .lossPrintE _ t v => [lossLine (t + 1) v]
  | _ => []

/-- Everything `train` prints, in order. -/
def train_output (pe nb ne : Nat) (loss : Nat → Nat → ℚ) : List String :=
  (train_trace pe nb ne loss).flatMap renderTrEv

/-- Selects the five framework steps of iteration `t` of epoch `e`
(forward, loss, zero-grad, backward, optimizer step); prints are not
steps. -/
def isStepOf (e t : Nat) : TrEv → Bool
  | .forwardE e' t' => e' == e && t' == t
  | .lossCompE e' t' => e' == e && t' == t
  | .zeroGradE e' t' => e' == e && t' == t
  | .backwardE e' t' => e' == e && t' == t
  | .optStepE e' t' => e' == e && t' == t
  | _ => false

/-! ## The `check_accuracy` loop

Source:
```
def check_accuracy(model, loader):
    if loader.dataset.train:
        print('Checking accuracy on validation set')
    else:
        print('Checking accuracy on test set')
    num_correct = 0
    num_samples = 0
    model.eval() # Put the model in test mode (the opposite of model.train(), essentially)
    for x, y in loader:
        x_var = Variable(x.type(gpu_dtype), volatile=True)
        scores = model(x_var)
        _, preds = scores.data.cpu().max(1)
        num_correct += (preds == y).sum()
        num_samples += preds.size(0)
    acc = float(num_correct) / num_samples
    print('Got %d / %d correct (%.2f)' % (num_correct, num_samples, 100 * acc))
```

The model is a per-sample score function `β → List ℚ` (ten class scores
per sample); a loader yields batches of (sample, label) pairs together
with the `train` flag of its underlying dataset. -/

/-- The dataset as `check_accuracy` sees it: only its `train` split flag
is consulted. -/
structure Dataset where
  train : Bool

/-- A data loader: the underlying dataset and the batches it yields. -/
structure Loader (β : Type) where
  dataset : Dataset
  batches : List (List (β × Int))

/-- The dataset `cifar10_train = dset.CIFAR10(..., train=True, ...)`. -/
def cifar10_train_ds : Dataset := ⟨true⟩

/-- The dataset `cifar10_val = dset.CIFAR10(..., train=True, ...)`. -/
def cifar10_val_ds : Dataset := ⟨true⟩

/-- The dataset `cifar10_test = dset.CIFAR10(..., train=False, ...)`. -/
def cifar10_test_ds : Dataset := ⟨false⟩

/-- Index of the first maximal score (the index component of
`scores.max(1)` for one row). -/
def argmaxAux : List ℚ → Nat → Nat → ℚ → Nat
  | [], _, best, _ => best
  | x :: xs, i, best, bv =>
    if bv < x then argmaxAux xs (i + 1) i x else argmaxAux xs (i + 1) best bv

/-- Row-wise argmax: `_, preds = scores.data.cpu().max(1)` for one
sample's score vector. -/
def argmax1 : List ℚ → Nat
  | [] => 0
  | x :: xs => argmaxAux xs 1 0 x

/-- The expression `(preds == y).sum()` for one batch: predictions from the model's
scores, compared with the labels. -/
def batchCorrect (model : β → List ℚ) (b : List (β × Int)) : Nat :=
  let preds := b.map fun p => argmax1 (model p.1)
  (preds.zip (b.map Prod.snd)).countP fun q => ((q.1 : Int) == q.2)

/-- The expression `preds.size(0)` for one batch. -/
def batchSizeOf (model : β → List ℚ) (b : List (β × Int)) : Nat :=
  (b.map fun p => argmax1 (model p.1)).length

/-- The accumulation loop of `check_accuracy`: state is
`(num_correct, num_samples)`. -/
def accLoop (model : β → List ℚ) : List (List (β × Int)) → Nat × Nat → Nat × Nat
  | [], st => st
  | b :: bs, st => accLoop model bs (st.1 + batchCorrect model b, st.2 + batchSizeOf model b)

/-- One event of the `check_accuracy` run. -/
inductive AccEv where
  | printLine (s : String)
  | modelEval
  | forwardBatch (i : Nat)
  deriving DecidableEq

/-- Is the event the forward pass on some batch? -/
def AccEv.isForward : AccEv → Bool
  | .forwardBatch _ => true
  | _ => false

/-- The header `check_accuracy` prints, chosen from the dataset's
`train` flag. -/
def accHeader (d : Dataset) : String :=
  if d.train then "Checking accuracy on validation set" else "Checking accuracy on test set"

/-- The format `'Got %d / %d correct (%.2f)' % (num_correct, num_samples, 100 * acc)`. -/
def gotLine (c s : Nat) (pct : ℚ) : String :=
  "Got " ++ toString c ++ " / " ++ toString s ++ " correct (" ++ fmtFixed 2 pct ++ ")"

/-- The result of a `check_accuracy` run: its event trace and the
numeric state it computed. -/
structure AccResult where
  trace : List AccEv
  num_correct : Nat
  num_samples : Nat
  acc : ℚ

/-- The `check_accuracy` function: header print, `model.eval()`, the
counting loop over the loader's batches, then the result print. -/
def check_accuracy (model : β → List ℚ) (loader : Loader β) : AccResult :=
  let st := accLoop model loader.batches (0, 0)
  let acc : ℚ := (st.1 : ℚ) / (st.2 : ℚ)
  { trace := .printLine (accHeader loader.dataset) :: .modelEval ::
      (((List.range loader.batches.length).map AccEv.forwardBatch) ++
        [.printLine (gotLine st.1 st.2 (100 * acc))]),
    num_correct := st.1,
    num_samples := st.2,
    acc := acc }

/-- The strings a `check_accuracy` event prints. -/
def renderAccEv : AccEv → List String
  | .printLine s => [s]
  | _ => []

/-- Everything `check_accuracy` prints, in order. -/
def check_output (model : β → List ℚ) (loader : Loader β) : List String :=
  (check_accuracy model loader).trace.flatMap renderAccEv

/-- The result line `check_accuracy` is expected to print: the `Got`
format applied to the computed counts, with the percentage equal to
`100 * num_correct / num_samples`. -/
def gotOf (model : β → List ℚ) (loader : Loader β) : String :=
  gotLine (check_accuracy model loader).num_correct
    (check_accuracy model loader).num_samples
    (100 * (((check_accuracy model loader).num_correct : ℚ) /
      ((check_accuracy model loader).num_samples : ℚ)))

/-! ## Theorems -/

theorem chunkSampler_iter_eq_range' (n s : Nat) :
    ChunkSampler.iter n s = List.range' s n := by
  simp [ChunkSampler.iter, pyRange]

theorem chain'_succ_range' (n s : Nat) :
    List.Chain' (fun a b => b = a + 1) (List.range' s n) := by
  induction n generalizing s with
  | zero => simp [List.range']
  | succ m ih =>
    rw [List.range']
    rcases m with _ | k
    · simp [List.range']
    · exact List.Chain'.cons rfl (ih (s + 1))

/-- C3 counterexample: the training loader's sampler does NOT yield a
shuffled order; it yields exactly the fixed sequential order
`0, 1, ..., NUM_TRAIN - 1` (it is `range(0, 49000)`), refuting the
claim that the order is randomized rather than sequential. -/
theorem loader_train_shuffled_false :
    ¬ (loader_train_cfg.samplerIndices ≠ List.range' 0 NUM_TRAIN) := by
  intro h
  exact h (chunkSampler_iter_eq_range' NUM_TRAIN 0)

/-- C3 (amended): the training loader supplies batches of labeled
images, but in a fixed sequential order, not a shuffled one: its sampler
yields dataset indices each equal to the previous plus one, starting at
0, and the loader's `shuffle` flag keeps its default `false`. -/
theorem loader_train_sampler_sequential :
    loader_train_cfg.samplerIndices = List.range' 0 NUM_TRAIN ∧
    List.Chain' (fun a b => b = a + 1) loader_train_cfg.samplerIndices ∧
    loader_train_cfg.shuffle = false := by
  refine ⟨chunkSampler_iter_eq_range' NUM_TRAIN 0, ?_, rfl⟩
  rw [show loader_train_cfg.samplerIndices = ChunkSampler.iter NUM_TRAIN 0 from rfl,
    chunkSampler_iter_eq_range']
  exact chain'_succ_range' NUM_TRAIN 0

/-- C8: `ChunkSampler(n, s)` yields exactly the `n` consecutive indices
`s, s+1, ..., s+n-1`, its declared length equals the number of indices
yielded, and the train/val samplers `ChunkSampler(49000, 0)` and
`ChunkSampler(1000, 49000)` select disjoint index sets whose union is
exactly the range `0, ..., 49999`. -/
theorem chunkSampler_consecutive_disjoint_cover :
    (∀ n s : Nat, ChunkSampler.iter n s = List.range' s n ∧
      (ChunkSampler.iter n s).length = ChunkSampler.len n s) ∧
    List.Disjoint (ChunkSampler.iter NUM_TRAIN 0) (ChunkSampler.iter NUM_VAL NUM_TRAIN) ∧
    ChunkSampler.iter NUM_TRAIN 0 ++ ChunkSampler.iter NUM_VAL NUM_TRAIN =
      List.range (NUM_TRAIN + NUM_VAL) := by
  refine ⟨fun n s => ⟨chunkSampler_iter_eq_range' n s, ?_⟩, ?_, ?_⟩
  · rw [chunkSampler_iter_eq_range']
    simp [ChunkSampler.len]
  · intro a ha hb
    rw [chunkSampler_iter_eq_range', List.mem_range'_1] at ha
    rw [chunkSampler_iter_eq_range', List.mem_range'_1] at hb
    simp [NUM_TRAIN, NUM_VAL] at ha hb
    omega
  · rw [chunkSampler_iter_eq_range', chunkSampler_iter_eq_range', List.range_eq_range']
    have h := List.range'_append 0 NUM_TRAIN NUM_VAL 1
    simpa [Nat.add_comm] using h

/-- Witness for C8 at a concrete sampler. -/
theorem chunkSampler_consecutive_disjoint_cover_witness :
    ChunkSampler.iter 5 3 = List.range' 3 5 ∧
    (ChunkSampler.iter 5 3).length = ChunkSampler.len 5 3 :=
  chunkSampler_consecutive_disjoint_cover.1 5 3

/-- C9: on a well-formed `N x C x H x W` tensor with `N > 0`,
`Flatten.forward` returns a tensor of shape `N x (C*H*W)` whose storage
is exactly the input's storage (same elements, same row-major order),
so the batch dimension and the total element count are preserved and no
element is modified. -/
theorem Flatten_forward_flattens (t : Tensor4 α)
    (hn : 0 < t.n) (hlen : t.data.length = t.n * t.c * t.h * t.w) :
    Flatten.forward t = some { rows := t.n, cols := t.c * t.h * t.w, data := t.data } ∧
    t.n * (t.c * t.h * t.w) = t.data.length := by
  have hnum : t.numel = t.n * (t.c * t.h * t.w) := by
    simp [Tensor4.numel]
    ring
  constructor
  · rw [Flatten.forward, Tensor4.view2, if_pos]
    · have hdiv : t.numel / t.n = t.c * t.h * t.w := by
        rw [hnum]
        exact Nat.mul_div_cancel_left _ hn
      rw [hdiv]
    · constructor
      · omega
      · rw [hnum]
        exact Nat.mul_mod_right t.n _
  · rw [hlen]
    ring

/-- Witness for C9 at a concrete `2 x 3 x 1 x 1` tensor. -/
theorem Flatten_forward_flattens_witness :
    Flatten.forward (Tensor4.mk 2 3 1 1 [10, 20, 30, 40, 50, 60]) =
      some { rows := 2, cols := 3 * 1 * 1, data := ([10, 20, 30, 40, 50, 60] : List Nat) } ∧
    2 * (3 * 1 * 1) = ([10, 20, 30, 40, 50, 60] : List Nat).length :=
  Flatten_forward_flattens (Tensor4.mk 2 3 1 1 [10, 20, 30, 40, 50, 60])
    (by decide) (by decide)

/-- C5: for every batch of `N` images of shape `3 x 32 x 32`, the shapes
propagate through `fixed_model_base` without mismatch: the convolution
yields `32 x 26 x 26`, pooling yields `32 x 13 x 13`, flattening yields a
vector of length `5408` which is the first affine layer's declared input
size, the final output has shape `N x 10`, and every prefix of the layer
list accepts the shape produced by the previous layers. -/
theorem fixed_model_base_shapes (N : Nat) :
    propagateB (List.take 1 fixed_model_base) (N, .chw 3 32 32) = some (N, .chw 32 26 26) ∧
    propagateB (List.take 4 fixed_model_base) (N, .chw 3 32 32) = some (N, .chw 32 13 13) ∧
    propagateB (List.take 5 fixed_model_base) (N, .chw 3 32 32) = some (N, .vec 5408) ∧
    fixed_model_base[5]? = some (.linear 5408 1024) ∧
    propagateB fixed_model_base (N, .chw 3 32 32) = some (N, .vec 10) ∧
    ∀ k : Nat, (propagateB (List.take k fixed_model_base) (N, .chw 3 32 32)).isSome := by
  refine ⟨rfl, rfl, rfl, rfl, rfl, ?_⟩
  intro k
  match k with
  | 0 => rfl
  | 1 => rfl
  | 2 => rfl
  | 3 => rfl
  | 4 => rfl
  | 5 => rfl
  | 6 => rfl
  | 7 => rfl
  | Nat.succ (Nat.succ (Nat.succ (Nat.succ (Nat.succ (Nat.succ (Nat.succ (Nat.succ m))))))) =>
    rw [List.take_of_length_le (by simp [fixed_model_base])]
    rfl

/-- Witness for C5 at the notebook's batch size 64. -/
theorem fixed_model_base_shapes_witness :
    propagateB fixed_model_base (64, .chw 3 32 32) = some (64, .vec 10) :=
  (fixed_model_base_shapes 64).2.2.2.2.1

/-- C6: in every configuration where a model is trained, the optimizer
in effect was constructed over that same model's parameters, so each
optimizer step mutates the trained model's parameters and no other
model's. -/
theorem optimizer_owner_matches_trained_model :
    (trainingEvents notebookCells none).all (fun ev => ev.2 == some ev.1) = true := by
  decide

/-- C7: the notebook's own code adds no recovery, retry, or translation
logic: an exception raised while processing a batch makes `train` or
`check_accuracy` return exactly that exception (unchanged, regardless of
the remaining batches), and a successful iteration just continues the
loop. -/
theorem exceptions_propagate_unchanged {ε β' π Λ : Type} :
    (∀ (fw : TrainFW ε β' π Λ) (b : β') (bs : List β') (e : ε),
      runBatchE fw b = .error e → trainBatchesE fw (b :: bs) = .error e) ∧
    (∀ (fw : TrainFW ε β' π Λ) (b : β') (bs : List β'),
      runBatchE fw b = .ok () → trainBatchesE fw (b :: bs) = trainBatchesE fw bs) ∧
    (∀ (fw : AccFW ε β' π) (st : Nat × Nat) (b : β') (bs : List β') (e : ε),
      accBatchE fw st b = .error e → checkBatchesE fw (b :: bs) st = .error e) ∧
    (∀ (fw : AccFW ε β' π) (st st2 : Nat × Nat) (b : β') (bs : List β'),
      accBatchE fw st b = .ok st2 → checkBatchesE fw (b :: bs) st = checkBatchesE fw bs st2) := by
  refine ⟨fun fw b bs e h => ?_, fun fw b bs h => ?_,
    fun fw st b bs e h => ?_, fun fw st st2 b bs h => ?_⟩
  · simp only [trainBatchesE, h]
    rfl
  · simp only [trainBatchesE, h]
    rfl
  · simp only [checkBatchesE, h]
    rfl
  · simp only [checkBatchesE, h]
    rfl

/-- Witness for C7: a framework whose forward pass raises makes the
loop return exactly that exception. -/
theorem exceptions_propagate_unchanged_witness :
    runBatchE failingTrainFW 7 = .error "shape mismatch" ∧
    trainBatchesE failingTrainFW [7, 8, 9] = .error "shape mismatch" := by
  constructor
  · rfl
  · exact (exceptions_propagate_unchanged).1 failingTrainFW 7 [8, 9] "shape mismatch" rfl

theorem batchCorrect_eq_countP (model : β → List ℚ) (b : List (β × Int)) :
    batchCorrect model b = b.countP fun q => ((argmax1 (model q.1) : Int) == q.2) := by
  rw [batchCorrect, List.zip_map', List.countP_map]
  rfl

theorem batchSizeOf_eq_length (model : β → List ℚ) (b : List (β × Int)) :
    batchSizeOf model b = b.length := by
  simp [batchSizeOf]

theorem accLoop_spec (model : β → List ℚ) (bs : List (List (β × Int))) (st : Nat × Nat) :
    accLoop model bs st =
      (st.1 + bs.flatten.countP (fun q => ((argmax1 (model q.1) : Int) == q.2)),
       st.2 + bs.flatten.length) := by
  induction bs generalizing st with
  | nil => simp [accLoop]
  | cons b bs ih =>
    rw [accLoop, ih]
    simp [List.countP_append, batchCorrect_eq_countP, batchSizeOf_eq_length]
    omega

/-- C1: `check_accuracy(model, loader)` puts the model into inference
mode before any batch is processed, counts as `num_correct` exactly the
samples (across all batches) whose argmax class equals their label,
counts as `num_samples` every sample iterated, and reports
`acc = num_correct / num_samples`. -/
theorem check_accuracy_correct (model : β → List ℚ) (loader : Loader β) :
    (∃ pre post, (check_accuracy model loader).trace = pre ++ AccEv.modelEval :: post ∧
      ∀ ev ∈ pre, AccEv.isForward ev = false) ∧
    (check_accuracy model loader).num_correct =
      loader.batches.flatten.countP (fun q => ((argmax1 (model q.1) : Int) == q.2)) ∧
    (check_accuracy model loader).num_samples = loader.batches.flatten.length ∧
    (check_accuracy model loader).acc =
      ((check_accuracy model loader).num_correct : ℚ) /
        ((check_accuracy model loader).num_samples : ℚ) := by
  refine ⟨⟨[.printLine (accHeader loader.dataset)], _, rfl, ?_⟩, ?_, ?_, rfl⟩
  · intro ev hev
    rw [List.mem_singleton.mp hev]
    rfl
  · show (accLoop model loader.batches (0, 0)).1 = _
    rw [accLoop_spec]
    simp
  · show (accLoop model loader.batches (0, 0)).2 = _
    rw [accLoop_spec]
    simp

/-- Witness for C1 on a concrete two-batch loader. -/
theorem check_accuracy_correct_witness :
    (∃ pre post,
      (check_accuracy (fun k : Nat => [(0 : ℚ), k]) ⟨⟨true⟩, [[(0, 1), (3, 0)], [(2, 1)]]⟩).trace =
        pre ++ AccEv.modelEval :: post ∧ ∀ ev ∈ pre, AccEv.isForward ev = false) ∧
    (check_accuracy (fun k : Nat => [(0 : ℚ), k]) ⟨⟨true⟩, [[(0, 1), (3, 0)], [(2, 1)]]⟩).num_correct =
      ([[(0, 1), (3, 0)], [(2, 1)]] : List (List (Nat × Int))).flatten.countP
        (fun q => ((argmax1 ((fun k : Nat => [(0 : ℚ), k]) q.1) : Int) == q.2)) ∧
    (check_accuracy (fun k : Nat => [(0 : ℚ), k]) ⟨⟨true⟩, [[(0, 1), (3, 0)], [(2, 1)]]⟩).num_samples =
      ([[(0, 1), (3, 0)], [(2, 1)]] : List (List (Nat × Int))).flatten.length ∧
    (check_accuracy (fun k : Nat => [(0 : ℚ), k]) ⟨⟨true⟩, [[(0, 1), (3, 0)], [(2, 1)]]⟩).acc =
      ((check_accuracy (fun k : Nat => [(0 : ℚ), k]) ⟨⟨true⟩, [[(0, 1), (3, 0)], [(2, 1)]]⟩).num_correct : ℚ) /
        ((check_accuracy (fun k : Nat => [(0 : ℚ), k]) ⟨⟨true⟩, [[(0, 1), (3, 0)], [(2, 1)]]⟩).num_samples : ℚ) :=
  check_accuracy_correct (fun k : Nat => [(0 : ℚ), k]) ⟨⟨true⟩, [[(0, 1), (3, 0)], [(2, 1)]]⟩

/-- C10: `check_accuracy` chooses its printed header solely from the
loader's dataset `train` flag — `Checking accuracy on validation set`
iff the flag is true, `Checking accuracy on test set` otherwise — so a
loader over any training-split dataset (including the training loader
itself) is always labeled as the validation set. -/
theorem check_accuracy_header_from_train_flag :
    (∀ (model : β → List ℚ) (loader : Loader β),
      (check_output model loader).head? =
        some (if loader.dataset.train then "Checking accuracy on validation set"
              else "Checking accuracy on test set")) ∧
    (∀ (model : β → List ℚ) (batches : List (List (β × Int))),
      (check_output model (Loader.mk cifar10_train_ds batches)).head? =
        some "Checking accuracy on validation set") := by
  constructor
  · intro model loader
    rfl
  · intro model batches
    rfl

/-- Witness for C10 on concrete loaders over the training-split and the
test-split datasets. -/
theorem check_accuracy_header_from_train_flag_witness :
    (check_output (fun k : Nat => [(k : ℚ)]) (Loader.mk cifar10_test_ds [])).head? =
      some (if cifar10_test_ds.train then "Checking accuracy on validation set"
            else "Checking accuracy on test set") ∧
    (check_output (fun k : Nat => [(k : ℚ)]) (Loader.mk cifar10_train_ds [])).head? =
      some "Checking accuracy on validation set" :=
  ⟨check_accuracy_header_from_train_flag.1 (fun k : Nat => [(k : ℚ)]) (Loader.mk cifar10_test_ds []),
   check_accuracy_header_from_train_flag.2 (fun k : Nat => [(k : ℚ)]) []⟩

theorem flatMap_range_eq_nil {γ : Type} (g : Nat → List γ) (n : Nat)
    (hz : ∀ i, i < n → g i = []) : (List.range n).flatMap g = [] :=
  List.flatMap_eq_nil_iff.mpr fun x hx => hz x (List.mem_range.mp hx)

theorem flatMap_range_eq_single {γ : Type} (g : Nat → List γ) (n j : Nat)
    (hj : j < n) (hz : ∀ i, i < n → i ≠ j → g i = []) :
    (List.range n).flatMap g = g j := by
  induction n with
  | zero => omega
  | succ m ih =>
    rw [List.range_succ, List.flatMap_append]
    rcases Nat.lt_succ_iff_lt_or_eq.mp hj with h | rfl
    · rw [ih h fun i hi hne => hz i (Nat.lt_succ_of_lt hi) hne]
      have hm : g m = [] := hz m (Nat.lt_succ_self m) (by omega)
      simp [hm]
    · rw [flatMap_range_eq_nil (n := j) g fun i hi => hz i (Nat.lt_succ_of_lt hi) (by omega)]
      simp

theorem filter_perBatch_ne (pe e t e' t' : Nat) (v : ℚ) (h : e' ≠ e ∨ t' ≠ t) :
    (perBatchTrace pe e' t' v).filter (isStepOf e t) = [] := by
  have hb : (e' == e && t' == t) = false := by
    rcases h with h | h <;> simp [h]
  by_cases hc : ((t' + 1) % pe == 0 : Bool) <;>
    simp [perBatchTrace, hc, isStepOf, hb]

theorem filter_perBatch_eq (pe e t : Nat) (v : ℚ) :
    (perBatchTrace pe e t v).filter (isStepOf e t) =
      [.forwardE e t, .lossCompE e t, .zeroGradE e t, .backwardE e t, .optStepE e t] := by
  by_cases hc : ((t + 1) % pe == 0 : Bool) <;>
    simp [perBatchTrace, hc, isStepOf]

theorem filter_epoch_block (pe nb ne e t e' : Nat) (loss : Nat → Nat → ℚ) :
    (TrEv.epochPrint e' ne :: TrEv.modelTrainMode e' ::
      (List.range nb).flatMap fun t' => perBatchTrace pe e' t' (loss e' t')).filter
        (isStepOf e t) =
    ((List.range nb).flatMap fun t' => perBatchTrace pe e' t' (loss e' t')).filter
      (isStepOf e t) := by
  simp [List.filter, isStepOf]

/-- C2: in every epoch of `train`, each batch index `t` of the training
loader gives rise to exactly the five framework steps forward pass, loss
computation, gradient zeroing, backward pass, optimizer step — in this
order, once each: filtering the whole training trace to the steps of
epoch `e`, iteration `t` yields exactly that five-element sequence. -/
theorem train_processes_each_batch_once (pe nb ne : Nat) (loss : Nat → Nat → ℚ)
    (e t : Nat) (he : e < ne) (ht : t < nb) :
    (train_trace pe nb ne loss).filter (isStepOf e t) =
      [.forwardE e t, .lossCompE e t, .zeroGradE e t, .backwardE e t, .optStepE e t] := by
  rw [train_trace, List.filter_flatMap]
  have hz : ∀ i, i < ne → i ≠ e →
      (fun e' => (TrEv.epochPrint e' ne :: TrEv.modelTrainMode e' ::
        (List.range nb).flatMap fun t' => perBatchTrace pe e' t' (loss e' t')).filter
          (isStepOf e t)) i = [] := by
    intro i hi hne
    dsimp only
    rw [filter_epoch_block, List.filter_flatMap]
    exact flatMap_range_eq_nil _ nb fun t' ht' =>
      filter_perBatch_ne pe e t i t' (loss i t') (Or.inl hne)
  rw [flatMap_range_eq_single _ ne e he hz, filter_epoch_block, List.filter_flatMap]
  rw [flatMap_range_eq_single _ nb t ht fun i hi hne =>
    filter_perBatch_ne pe e t e i (loss e i) (Or.inr hne)]
  exact filter_perBatch_eq pe e t (loss e t)

/-- Witness for C2 at one epoch of 766 batches (the notebook's
`49000 / 64` rounded up), iteration 5. -/
theorem train_processes_each_batch_once_witness :
    (train_trace print_every 766 1 (fun _ _ => 0)).filter (isStepOf 0 5) =
      [.forwardE 0 5, .lossCompE 0 5, .zeroGradE 0 5, .backwardE 0 5, .optStepE 0 5] :=
  train_processes_each_batch_once print_every 766 1 (fun _ _ => 0) 0 5
    (by decide) (by decide)

theorem perBatch_render (pe e t : Nat) (v : ℚ) :
    (perBatchTrace pe e t v).flatMap renderTrEv =
      if ((t + 1) % pe == 0 : Bool) then [lossLine (t + 1) v] else [] := by
  by_cases hc : ((t + 1) % pe == 0 : Bool) <;>
    simp [perBatchTrace, renderTrEv, hc]

theorem forward_render_nil (n : Nat) :
    ((List.range n).map AccEv.forwardBatch).flatMap renderAccEv = [] := by
  rw [List.flatMap_eq_nil_iff]
  intro x hx
  obtain ⟨i, _, rfl⟩ := List.mem_map.mp hx
  rfl

theorem gotLine_head (c s : Nat) (pct : ℚ) :
    (gotLine c s pct).data.head? = some 'G' := by
  simp [gotLine, String.data_append, List.head?_append]

theorem accHeader_ne_gotLine (d : Dataset) (c s : Nat) (pct : ℚ) :
    accHeader d ≠ gotLine c s pct := by
  intro h
  have hh := congrArg (fun str => str.data.head?) h
  simp only [gotLine_head] at hh
  rcases d with ⟨hb⟩
  cases hb <;> simp [accHeader] at hh

theorem check_output_eq (model : β → List ℚ) (loader : Loader β) :
    check_output model loader = [accHeader loader.dataset, gotOf model loader] := by
  rw [check_output, gotOf]
  show (AccEv.printLine (accHeader loader.dataset) :: AccEv.modelEval ::
    (((List.range loader.batches.length).map AccEv.forwardBatch) ++
      [AccEv.printLine _])).flatMap renderAccEv = _
  rw [List.flatMap_cons, List.flatMap_cons, List.flatMap_append, forward_render_nil]
  rfl

/-- C4: every loss progress line `train` prints is produced by the
format `t = %d, loss = %.4f` with the 1-based iteration number and the
current loss (any other printed line is the per-epoch banner), and
`check_accuracy` prints exactly one result line, of the form
`Got %d / %d correct (%.2f)`, whose percentage equals
`100 * num_correct / num_samples`. -/
theorem printed_lines_documented_form (γ : Type) :
    (∀ (pe nb ne : Nat) (loss : Nat → Nat → ℚ) (l : String),
      l ∈ train_output pe nb ne loss →
      (∃ e, e < ne ∧ l = epochLine e ne) ∨
      (∃ e t, e < ne ∧ t < nb ∧ (t + 1) % pe = 0 ∧ l = lossLine (t + 1) (loss e t))) ∧
    (∀ (model : γ → List ℚ) (loader : Loader γ),
      check_output model loader = [accHeader loader.dataset, gotOf model loader] ∧
      (check_output model loader).countP (fun l => l == gotOf model loader) = 1) := by
  constructor
  · intro pe nb ne loss l hl
    rw [train_output, train_trace] at hl
    rw [List.flatMap_assoc] at hl
    obtain ⟨e, he, hl⟩ := List.mem_flatMap.mp hl
    rw [List.mem_range] at he
    rw [List.flatMap_cons, List.flatMap_cons] at hl
    rcases List.mem_append.mp hl with h | h
    · left
      exact ⟨e, he, List.mem_singleton.mp h⟩
    · right
      rw [show renderTrEv (TrEv.modelTrainMode e) = [] from rfl, List.nil_append,
        List.flatMap_assoc] at h
      obtain ⟨t, ht, h⟩ := List.mem_flatMap.mp h
      rw [List.mem_range] at ht
      rw [perBatch_render] at h
      by_cases hc : ((t + 1) % pe == 0 : Bool)
      · rw [if_pos hc] at h
        refine ⟨e, t, he, ht, ?_, List.mem_singleton.mp h⟩
        simpa using hc
      · rw [if_neg hc] at h
        cases h
  · intro model loader
    refine ⟨check_output_eq model loader, ?_⟩
    rw [check_output_eq]
    have hne : (accHeader loader.dataset == gotOf model loader) = false := by
      rw [beq_eq_false_iff_ne]
      exact accHeader_ne_gotLine loader.dataset _ _ _
    simp [List.countP_cons, hne]

/-- Witness for C4: the epoch banner of a one-epoch, one-batch run is a
printed line and falls under the stated disjunction. -/
theorem printed_lines_documented_form_witness :
    (epochLine 0 1 ∈ train_output 1 1 1 fun _ _ => (0 : ℚ)) ∧
    ((∃ e, e < 1 ∧ epochLine 0 1 = epochLine e 1) ∨
     (∃ e t, e < 1 ∧ t < 1 ∧ (t + 1) % 1 = 0 ∧
       epochLine 0 1 = lossLine (t + 1) ((fun _ _ => (0 : ℚ)) e t))) := by
  have hmem : epochLine 0 1 ∈ train_output 1 1 1 fun _ _ => (0 : ℚ) := by
    rw [show train_output 1 1 1 (fun _ _ => (0 : ℚ)) =
      epochLine 0 1 :: [lossLine 1 0] from rfl]
    exact List.mem_cons_self _ _
  exact ⟨hmem, (printed_lines_documented_form Nat).1 1 1 1 (fun _ _ => (0 : ℚ)) (epochLine 0 1) hmem⟩

end CS231n
